import Mathlib

/-!
# Verification of the pi-convos Bridge Controller

Shallow embedding of the Convos agent extension
(`src/unnamed/part_001`, headless variant; `src/extensions/convos-agent.ts`
is the interactive subset with identical exit/stop/stderr/line handling).

The module-level mutable variables of the extension are threaded explicitly;
the ndjson line dispatcher, the stderr ring buffer, the exit handler, the
stop grace timer, the persisted session record, the catch-up reconciler and
the mode router are each translated into a pure Lean function on explicit
state.  Nanosecond timestamps are decimal strings in the protocol; they are
embedded by their numeric value (as `Nat`), and a present field stands for a
truthy (non-empty) string.
-/

namespace PiConvos

/-! ## JS value helpers -/

/-- JS truthiness of a `string | null | undefined` value:
truthy iff present and non-empty. -/
def strTruthy : Option String → Bool
  | some s => !(s == "")
  | none => false

/-! ## Persisted session record

`persistState` (part_001:388-399) and `loadPersistedState` (part_001:374-382).
The durable file at the configured path is modelled by its content: absent,
present but unparseable, or a parsed JSON object (an association list of
scalar fields).  String-encoded nanosecond timestamps are embedded as `Nat`. -/

/-- A JSON scalar as it occurs in the persisted record. -/
inductive JVal
  | jstr (s : String)
  | jnum (n : Nat)
  | jnull
deriving DecidableEq, Repr

/-- Content of the session file at the configured path. -/
inductive Store
  | missing
  | corrupt
  | record (fields : List (String × JVal))
deriving DecidableEq, Repr

/-- The `PersistedState` interface (part_001:368-372). -/
structure PersistedState where
  conversationId : Option String
  inviteUrl : Option String
  lastSeenTimestampNs : Option Nat
deriving DecidableEq, Repr

def optJStr : Option String → JVal
  | some s => .jstr s
  | none => .jnull

def optJNum : Option Nat → JVal
  | some n => .jnum n
  | none => .jnull

/-- Reading a string field of the parsed record (the TS cast is unchecked;
a missing or null field reads back as absent). -/
def getStr (fields : List (String × JVal)) (k : String) : Option String :=
  match fields.lookup k with
  | some (.jstr s) => some s
  | _ => none

/-- Reading the string-encoded timestamp field of the parsed record. -/
def getNum (fields : List (String × JVal)) (k : String) : Option Nat :=
  match fields.lookup k with
  | some (.jnum n) => some n
  | _ => none

/-- `loadPersistedState` (part_001:374-382): `null` when the file is missing
or `JSON.parse` throws (the exception is caught); otherwise the parsed
record.  Total: no failure escapes. -/
def loadPersistedState : Store → Option PersistedState
  | .missing => none
  | .corrupt => none
  | .record f =>
      some ⟨getStr f "conversationId", getStr f "inviteUrl",
            getNum f "lastSeenTimestampNs"⟩

/-- `persistState` (part_001:388-399): returns without writing unless
`conversationId` is truthy; otherwise overwrites the file with the
three-field record. -/
def persistState (conversationId inviteUrl : Option String)
    (lastSeenTimestampNs : Option Nat) (st : Store) : Store :=
  if strTruthy conversationId then
    .record [("conversationId", optJStr conversationId),
             ("inviteUrl", optJStr inviteUrl),
             ("lastSeenTimestampNs", optJNum lastSeenTimestampNs)]
  else st

/-! ## Diagnostic stderr ring buffer

The stderr line listener (part_001:749-756): push every line, then drop the
oldest while more than 50 are held. -/

/-- One stderr line arriving: `stderrLines.push(line); if (length > 50) shift()`. -/
def pushStderrLine (buf : List String) (line : String) : List String :=
  let b := buf ++ [line]
  if b.length > 50 then b.drop 1 else b

/-- Buffer contents after a whole sequence of stderr lines (initially empty). -/
def stderrBuffer (lines : List String) : List String :=
  lines.foldl pushStderrLine []

/-! ## Exit handler

`proc.on("exit")` (part_001:758-800).  The exit `code` is `number | null`;
the handler compares it to `0` with strict inequality, so a `null` code also
takes the pre-ready failure branch. -/

/-- What the exit handler publishes to the host. -/
inductive ExitReport
  | startupFailure (code : Option Int) (stderrTail : List String)
  | processExited (code : Option Int)
  | silent
deriving DecidableEq, Repr

/-- The exit handler, as a function of the readiness flag at exit time, the
exit code, and the current stderr buffer. -/
def onExit (wasReady : Bool) (code : Option Int) (stderrLines : List String) :
    ExitReport :=
  if wasReady = false ∧ code ≠ some 0 then .startupFailure code stderrLines
  else if wasReady = true then .processExited code
  else .silent

/-- The writes to the `isReady` module variable within one process
lifetime: the `ready` case sets it (part_001:573), and `stopAgent` clears
it while the process may still be about to exit (part_001:812).  The exit
handler reads this flag (part_001:759), not the history. -/
inductive LifeEvent
  | readyEvt
  | stopCall
deriving DecidableEq, Repr

/-- One write of the readiness flag (the previous value is overwritten). -/
def applyLifeEvent (_isReady : Bool) : LifeEvent → Bool
  | .readyEvt => true
  | .stopCall => false

/-- The `isReady` module variable after a sequence of such writes
(initially `false`, part_001:333). -/
def isReadyAt (evts : List LifeEvent) : Bool :=
  evts.foldl applyLifeEvent false

/-- Whether a `ready` event ever fired in the lifetime — the temporal
notion of readiness having been reached. -/
def reachedReady (evts : List LifeEvent) : Bool :=
  evts.any fun e =>
    match e with
    | .readyEvt => true
    | .stopCall => false

/-! ## Protocol codec: the stdout line dispatcher

`rl.on("line")` (part_001:563-746).  Each line is attempted as JSON inside a
try/catch; a parse failure returns from the handler (the line is dropped,
nothing is raised).  A parsed object is dispatched on its `event` field; a
discriminant outside the five switch cases falls through with no effect. -/

/-- The fields of a `message` event payload, all potentially absent
(the TS payload is untyped).  `sentAtNs` is a decimal nanosecond string,
embedded by value. -/
structure MessageEvent where
  id : Option String
  senderInboxId : Option String
  content : Option String
  contentType : Option String
  sentAt : Option String
  sentAtNs : Option Nat
deriving DecidableEq, Repr

/-- A successfully parsed ndjson object, projected onto the fields the
dispatcher reads.  `eventField` is the value of `.event` when it is a
string. -/
structure ParsedObj where
  eventField : Option String
  conversationId : Option String
  inviteUrl : Option String
  qrCodePath : Option String
  id : Option String
  senderInboxId : Option String
  content : Option String
  contentType : Option String
  sentAt : Option String
  sentAtNs : Option Nat
  inboxId : Option String
  message : Option String
deriving DecidableEq, Repr

/-- One raw line from the process output stream, after the `JSON.parse`
attempt: the parse threw, or it produced the JSON value `null` (the line
"null" parses successfully), or it produced an object.  Other non-object
values (numbers, strings, booleans, arrays) behave like objects with no
`event` field — property access on them yields `undefined` — and are
covered by `obj` with `eventField = none`. -/
inductive RawLine
  | malformed
  | nullValue
  | obj (o : ParsedObj)
deriving DecidableEq, Repr

/-- The tagged event processed by a recognized switch case. -/
inductive ProtocolEvent
  | ready (conversationId inviteUrl qrCodePath : Option String)
  | message (e : MessageEvent)
  | memberJoined (inboxId : Option String)
  | sent (id : Option String)
  | error (msg : Option String)
deriving DecidableEq, Repr

/-- Mapping a parsed object to the structured event its switch case
processes: `none` for an unrecognized discriminant (the switch falls
through with no effect). -/
def decodeObj (o : ParsedObj) : Option ProtocolEvent :=
  match o.eventField with
  | some "ready" => some (.ready o.conversationId o.inviteUrl o.qrCodePath)
  | some "message" =>
      some (.message ⟨o.id, o.senderInboxId, o.content, o.contentType,
                      o.sentAt, o.sentAtNs⟩)
  | some "member_joined" => some (.memberJoined o.inboxId)
  | some "sent" => some (.sent o.id)
  | some "error" => some (.error o.message)
  | _ => none

/-- Whether a raw line is well-formed JSON carrying one of the five
recognized discriminants of the switch. -/
def recognized : RawLine → Bool
  | .malformed => false
  | .nullValue => false
  | .obj o =>
    match o.eventField with
    | some "ready" => true
    | some "message" => true
    | some "member_joined" => true
    | some "sent" => true
    | some "error" => true
    | _ => false

/-- The whole line-handler body on one line (part_001:563-746): a
`JSON.parse` failure is caught by the surrounding try/catch and the line
dropped; but a line whose parse succeeds with `null` reaches
`switch (event.event)` (part_001:571), and reading a field of `null`
throws a TypeError that nothing in the handler catches; an object is
dispatched on its discriminant, processing at most one event. -/
def dispatchLine : RawLine → Except String (Option ProtocolEvent)
  | .malformed => .ok none
  | .nullValue => .error "TypeError: cannot read field event of null"
  | .obj o => .ok (decodeObj o)

/-! ## The `message` case of the dispatcher

part_001:621-708.  State that the case reads and writes: the watermark
`lastSeenTimestampNs`, the `lastMessageFromConvos` routing flag, and (via
`persistState`) the session file.  The remote-attachment regular expression
match and the synchronous download are external collaborator calls, passed
as inputs: `attachMatch` is the filename captured when the content matched
the pattern, `downloadOk` whether the download command succeeded. -/

/-- Mutable session state touched by the live event path. -/
structure SessionSt where
  lastSeenTimestampNs : Option Nat
  lastMessageFromConvos : Bool
deriving DecidableEq, Repr

/-- The single publish the `message` case emits on each of its paths. -/
inductive Publish
  | imageSteer
  | downloadFailedText
  | messageText
deriving DecidableEq, Repr

/-- Whether a publish triggers a reasoning turn, read off the
`pi.sendUserMessage`/`pi.sendMessage` options at each call site
(steer deliveries and `triggerTurn: true` both trigger a turn). -/
def publishTriggersTurn : Publish → Bool
  | .imageSteer => true
  | .downloadFailedText => true
  | .messageText => true

/-- Result of the `message` case: updated state, updated session file, and
the one publish emitted. -/
structure MessageOutcome where
  state : SessionSt
  store : Store
  publish : Publish
deriving DecidableEq, Repr

/-- The case-insensitive raster-image extension test
`/\.(jpg|jpeg|png|gif|webp|bmp)$/i.test(filename)` (part_001:636). -/
def isImageFilename (f : String) : Bool :=
  let l := f.toLower
  l.endsWith ".jpg" || l.endsWith ".jpeg" || l.endsWith ".png" ||
  l.endsWith ".gif" || l.endsWith ".webp" || l.endsWith ".bmp"

/-- The `case "message"` branch (part_001:621-708): set the routing flag;
if `sentAtNs` is truthy, advance the watermark and persist; then either the
attachment path (image publish on success, failure text otherwise) or the
ordinary message publish.  Every path publishes exactly once. -/
def handleMessageEvent (conversationId inviteUrl : Option String)
    (st : SessionSt) (store : Store) (e : MessageEvent)
    (attachMatch : Option String) (downloadOk : Bool) : MessageOutcome :=
  let st1 : SessionSt := { st with lastMessageFromConvos := true }
  let stst : SessionSt × Store :=
    match e.sentAtNs with
    | some ts =>
        ({ st1 with lastSeenTimestampNs := some ts },
         persistState conversationId inviteUrl (some ts) store)
    | none => (st1, store)
  match attachMatch with
  | some filename =>
      if strTruthy conversationId then
        if isImageFilename filename then
          if downloadOk then ⟨stst.1, stst.2, .imageSteer⟩
          else ⟨stst.1, stst.2, .downloadFailedText⟩
        else ⟨stst.1, stst.2, .messageText⟩
      else ⟨stst.1, stst.2, .messageText⟩
  | none => ⟨stst.1, stst.2, .messageText⟩

/-! ## Catch-up reconciler

`catchUpOnMissedMessages` (part_001:459-509). -/

/-- One message of the parsed catch-up query result.  `contentText` is
`msg.content?.text`; `sentAtNs` the string-encoded send time, by value. -/
structure FetchedMessage where
  senderInboxId : Option String
  contentText : Option String
  sentAtNs : Option Nat
deriving DecidableEq, Repr

/-- The JS strict inequality `msg.senderInboxId !== ownInboxId`, where the
sender is `string | undefined` and the own id `string | null`: false only
when both are present and equal. -/
def notSelf (sender own : Option String) : Bool :=
  match sender, own with
  | some s, some o => !(s == o)
  | _, _ => true

/-- The filter of the reconciler: not self-authored and with truthy text. -/
def missedFilter (own : Option String) (m : FetchedMessage) : Bool :=
  notSelf m.senderInboxId own && strTruthy m.contentText

/-- Result of a reconciliation run: final watermark, session file, routing
flag, and the sender/text lines of the injected summary (`none` when no
steer message was sent). -/
structure CatchUpOutcome where
  lastSeenTimestampNs : Option Nat
  store : Store
  lastMessageFromConvos : Bool
  steerSummary : Option (List (String × String))
deriving DecidableEq, Repr

/-- `catchUpOnMissedMessages` (part_001:459-509).  `fetched` is the parsed
result of the messages query (`none` when the command or `JSON.parse`
threw; the exception is caught and logged); `ownInboxId` is the resolved
own inbox identifier.  Guard order, early returns and the update of the
watermark to `messages[messages.length - 1].sentAtNs` follow the source. -/
def catchUpOnMissedMessages (conversationId convosEnvFile inviteUrl : Option String)
    (lastSeen : Option Nat) (lastMessageFromConvos : Bool) (store : Store)
    (ownInboxId : Option String)
    (fetched : Option (List FetchedMessage)) : CatchUpOutcome :=
  let unchanged : CatchUpOutcome := ⟨lastSeen, store, lastMessageFromConvos, none⟩
  if strTruthy conversationId = false ∨ strTruthy convosEnvFile = false ∨
     lastSeen = none then unchanged
  else
    match fetched with
    | none => unchanged
    | some msgs =>
      if msgs.isEmpty then unchanged
      else
        let missed := msgs.filter (missedFilter ownInboxId)
        if missed.isEmpty then unchanged
        else
          let summary := missed.map fun m =>
            (m.senderInboxId.getD "", m.contentText.getD "")
          match msgs.getLast? with
          | some newest =>
            match newest.sentAtNs with
            | some ts =>
                ⟨some ts, persistState conversationId inviteUrl (some ts) store,
                 true, some summary⟩
            | none => ⟨lastSeen, store, true, some summary⟩
          | none => unchanged

/-! ## Watermark transition system

For the monotonicity claim: the operations of a fixed session that mutate
`lastSeenTimestampNs` through the cited code paths — live `message` events
and reconciliation runs — acting on the bridge state. -/

/-- Configuration and mutable state of one bridge controller instance. -/
structure BridgeSt where
  conversationId : Option String
  convosEnvFile : Option String
  inviteUrl : Option String
  session : SessionSt
  store : Store
deriving DecidableEq, Repr

/-- One watermark-relevant operation, with its external inputs. -/
inductive Op
  | msgEvent (e : MessageEvent) (attachMatch : Option String) (downloadOk : Bool)
  | catchUp (ownInboxId : Option String) (fetched : Option (List FetchedMessage))
deriving DecidableEq, Repr

/-- Applying one operation to the bridge state. -/
def stepOp (b : BridgeSt) (op : Op) : BridgeSt :=
  match op with
  | .msgEvent e am ok =>
      let out := handleMessageEvent b.conversationId b.inviteUrl b.session
                   b.store e am ok
      { b with session := out.state, store := out.store }
  | .catchUp own fetched =>
      let out := catchUpOnMissedMessages b.conversationId b.convosEnvFile
                   b.inviteUrl b.session.lastSeenTimestampNs
                   b.session.lastMessageFromConvos b.store own fetched
      { b with session := ⟨out.lastSeenTimestampNs, out.lastMessageFromConvos⟩,
               store := out.store }

/-- Running a whole sequence of operations. -/
def runOps (b : BridgeSt) (ops : List Op) : BridgeSt :=
  ops.foldl stepOp b

/-- Order on watermarks: an absent watermark is below everything. -/
def wmLe : Option Nat → Option Nat → Bool
  | none, _ => true
  | some _, none => false
  | some a, some b => a ≤ b

/-! ## Stop grace timer

`stopAgent` (part_001:803-816, identical in convos-agent.ts:271-284) and
the race between the armed 2000 ms timer and the process exit.  The timer
callback runs `try { proc.kill("SIGTERM") } catch {}` on the captured child
handle; Node delivers the signal only if the process has not already
exited (`kill` on an exited child is a no-op, any error is swallowed). -/

/-- Supervisor-and-timer state. -/
structure StopSt where
  live : Bool
  procRunning : Bool
  writable : Bool
  timerPending : Bool
  stopCmdsWritten : Nat
  sigtermsSent : Nat
deriving DecidableEq, Repr

/-- `stopAgent`: when a live handle exists, write the `stop` command if the
stdin stream is writable, arm the grace timer, and clear the handle;
otherwise do nothing. -/
def stopAgent (s : StopSt) : StopSt :=
  if s.live then
    { s with
      stopCmdsWritten := s.stopCmdsWritten + (if s.writable then 1 else 0),
      timerPending := true,
      live := false }
  else s

/-- The process exits voluntarily. -/
def procExit (s : StopSt) : StopSt :=
  { s with procRunning := false }

/-- The armed grace timer fires: a forced-termination signal is delivered
exactly when the process is still running. -/
def timerFire (s : StopSt) : StopSt :=
  if s.timerPending then
    { s with
      timerPending := false,
      sigtermsSent := s.sigtermsSent + (if s.procRunning then 1 else 0),
      procRunning := false }
  else s

/-! ## Mode router

`pi.on("before_agent_start")` (part_001:518-543; the interactive file has
the same handler without the headless branch). -/

/-- The directive appended when the last trigger came from Convos
(part_001:525-526, 534-535). -/
def convosDirective : String :=
  "\n\nThe current message is from a Convos user. Reply using the convos_send tool. Do NOT use markdown — Convos renders plain text only."

/-- The directive appended for terminal-originated triggers
(part_001:539-540). -/
def terminalDirective : String :=
  "\n\nThe current message is from the terminal. Respond normally as plain text output. Do NOT use convos_send or convos_react — those are only for Convos messages."

/-- The `before_agent_start` handler: the overridden system prompt, or
`none` when the handler returns without a modification. -/
def beforeAgentStart (isReady headlessMode lastMessageFromConvos : Bool)
    (systemPrompt : String) : Option String :=
  if isReady = false then none
  else if headlessMode then
    if lastMessageFromConvos then some (systemPrompt ++ convosDirective)
    else none
  else
    if lastMessageFromConvos then some (systemPrompt ++ convosDirective)
    else some (systemPrompt ++ terminalDirective)

/-! ## Ring buffer characterization -/

theorem pushStderrLine_length_le (buf : List String) (line : String)
    (h : buf.length ≤ 50) : (pushStderrLine buf line).length ≤ 50 := by
  show (if (buf ++ [line]).length > 50 then (buf ++ [line]).drop 1
        else buf ++ [line]).length ≤ 50
  by_cases hc : (buf ++ [line]).length > 50
  · rw [if_pos hc]
    simp only [List.length_drop, List.length_append, List.length_cons,
      List.length_nil]
    omega
  · rw [if_neg hc]
    simp only [List.length_append, List.length_cons, List.length_nil] at hc ⊢
    omega

theorem foldl_pushStderrLine (lines : List String) :
    ∀ buf : List String, buf.length ≤ 50 →
      lines.foldl pushStderrLine buf =
        (buf ++ lines).drop ((buf ++ lines).length - 50) := by
  induction lines with
  | nil =>
    intro buf h
    have h0 : buf.length - 50 = 0 := by omega
    simp [h0]
  | cons l ls ih =>
    intro buf h
    rw [List.foldl_cons]
    by_cases hlen : buf.length < 50
    · have hp : pushStderrLine buf l = buf ++ [l] := by
        show (if (buf ++ [l]).length > 50 then (buf ++ [l]).drop 1
              else buf ++ [l]) = buf ++ [l]
        rw [if_neg (by simp; omega)]
      rw [hp, ih (buf ++ [l]) (by simp; omega)]
      simp [List.append_assoc]
    · have h50 : buf.length = 50 := by omega
      cases buf with
      | nil => simp at h50
      | cons b buf2 =>
        have hl2 : buf2.length = 49 := by
          simp only [List.length_cons] at h50
          omega
        have hp : pushStderrLine (b :: buf2) l = buf2 ++ [l] := by
          show (if ((b :: buf2) ++ [l]).length > 50 then
                  ((b :: buf2) ++ [l]).drop 1
                else (b :: buf2) ++ [l]) = buf2 ++ [l]
          rw [if_pos (by simp [hl2])]
          rfl
        rw [hp, ih (buf2 ++ [l]) (by simp [hl2])]
        have hlhs : (buf2 ++ [l] ++ ls).length - 50 = ls.length := by
          simp only [List.length_append, List.length_cons, List.length_nil, hl2]
          omega
        have hrhs : ((b :: buf2) ++ l :: ls).length - 50 = ls.length + 1 := by
          simp only [List.length_append, List.length_cons, hl2]
          omega
        rw [hlhs, hrhs]
        show (buf2 ++ [l] ++ ls).drop ls.length =
          (b :: (buf2 ++ l :: ls)).drop (ls.length + 1)
        rw [List.drop_succ_cons]
        simp [List.append_assoc]

/-- The buffer after a sequence of lines is exactly its last at-most-50
lines, in arrival order. -/
theorem stderrBuffer_eq (lines : List String) :
    stderrBuffer lines = lines.drop (lines.length - 50) := by
  have h := foldl_pushStderrLine lines [] (by simp)
  simpa [stderrBuffer] using h

theorem stderrBuffer_length_le (lines : List String) :
    (stderrBuffer lines).length ≤ 50 := by
  rw [stderrBuffer_eq]
  simp only [List.length_drop]
  omega

/-! ## Claim theorems: diagnostic buffer, exit reporting, persistence -/

/-- C6: after any sequence of error-stream lines the diagnostic buffer holds
at most 50 entries, the retained entries are the most recent lines in
arrival order, and after the 51st line the oldest line has been evicted. -/
theorem diagnostic_buffer_bound (lines : List String) :
    (stderrBuffer lines).length ≤ 50 ∧
    stderrBuffer lines = lines.drop (lines.length - 50) ∧
    (lines.length = 51 → stderrBuffer lines = lines.tail) := by
  refine ⟨stderrBuffer_length_le lines, stderrBuffer_eq lines, ?_⟩
  intro h51
  rw [stderrBuffer_eq, h51]
  simp [List.drop_one]

/-- Witness for C6: on 51 concrete distinct lines the buffer is the tail
(the oldest line evicted). -/
theorem diagnostic_buffer_bound_witness :
    ((List.range 51).map toString).length = 51 ∧
    stderrBuffer ((List.range 51).map toString) =
      ((List.range 51).map toString).tail :=
  ⟨by simp, (diagnostic_buffer_bound ((List.range 51).map toString)).2.2 (by simp)⟩

/-- If no `ready` event ever fired, the readiness flag is still unset. -/
theorem isReadyAt_false_of_not_reached (evts : List LifeEvent)
    (h : reachedReady evts = false) : isReadyAt evts = false := by
  induction evts with
  | nil => rfl
  | cons e es ih =>
    cases e with
    | readyEvt => simp [reachedReady] at h
    | stopCall =>
      have h2 : reachedReady es = false := by
        simpa [reachedReady] using h
      exact ih h2

/-- A `stopAgent` call clears the readiness flag regardless of history. -/
theorem isReadyAt_stop (evts : List LifeEvent) :
    isReadyAt (evts ++ [.stopCall]) = false := by
  simp [isReadyAt, List.foldl_append, applyLifeEvent]

/-- C4 counterexample: the exit handler branches on the `isReady` flag,
which `stopAgent` has already cleared when a stop-initiated exit fires; so
for a process that did reach `ready` and was then stopped, an exit with
code 0 is silent (no process-exited notice), and an exit with a null code
(the SIGTERM of the grace timer) is published as a startup failure —
against the claim that any exit after `ready` was reached yields a
process-exited notice regardless of code. -/
theorem exit_report_cex :
    reachedReady [LifeEvent.readyEvt, LifeEvent.stopCall] = true ∧
    onExit (isReadyAt [LifeEvent.readyEvt, LifeEvent.stopCall]) (some 0) []
      = .silent ∧
    onExit (isReadyAt [LifeEvent.readyEvt, LifeEvent.stopCall]) none []
      = .startupFailure none [] ∧
    onExit (isReadyAt [LifeEvent.readyEvt, LifeEvent.stopCall]) (some 0) []
      ≠ .processExited (some 0) := by
  refine ⟨rfl, rfl, rfl, ?_⟩
  decide

/-- C4 (amended): an exit with a non-zero (or null) code while the
readiness flag is unset — which holds whenever `ready` was never reached —
reports a startup failure whose diagnostic content is the last at-most-50
error-stream lines in arrival order; a process-exited notice is reported,
regardless of code, exactly when the flag is still set at exit time.
Since `stopAgent` clears the flag, a stop-initiated exit of a ready
process is instead silent on code 0 and a startup failure on a null
code. -/
theorem exit_report_flagged (lines : List String) (evts : List LifeEvent)
    (code : Option Int) (hc : code ≠ some 0) :
    (reachedReady evts = false →
      onExit (isReadyAt evts) code (stderrBuffer lines) =
        .startupFailure code (lines.drop (lines.length - 50))) ∧
    (isReadyAt evts = true →
      ∀ code2 : Option Int,
        onExit (isReadyAt evts) code2 (stderrBuffer lines) =
          .processExited code2) ∧
    onExit (isReadyAt (evts ++ [.stopCall])) (some 0) (stderrBuffer lines) =
      .silent ∧
    onExit (isReadyAt (evts ++ [.stopCall])) none (stderrBuffer lines) =
      .startupFailure none (lines.drop (lines.length - 50)) := by
  refine ⟨?_, ?_, ?_, ?_⟩
  · intro hnr
    rw [isReadyAt_false_of_not_reached evts hnr, stderrBuffer_eq]
    simp [onExit, hc]
  · intro hr code2
    rw [hr]
    simp [onExit]
  · rw [isReadyAt_stop]
    simp [onExit]
  · rw [isReadyAt_stop, stderrBuffer_eq]
    simp [onExit]

/-- Witness for C4 (amended): exit code 1 with the flag never set reports
the failure carrying exactly the two stderr lines; an exit while the flag
is set reports process-exited even for a non-zero code. -/
theorem exit_report_flagged_witness :
    (some 1 : Option Int) ≠ some 0 ∧
    onExit (isReadyAt []) (some 1) (stderrBuffer ["e1", "e2"]) =
      .startupFailure (some 1) ["e1", "e2"] ∧
    onExit (isReadyAt [LifeEvent.readyEvt]) (some 7) (stderrBuffer []) =
      .processExited (some 7) := by
  refine ⟨by decide, ?_, ?_⟩
  · have h := (exit_report_flagged ["e1", "e2"] [] (some 1) (by decide)).1 rfl
    simpa using h
  · exact (exit_report_flagged [] [LifeEvent.readyEvt] (some 7)
      (by decide)).2.1 rfl (some 7)

/-- C9 counterexample: a `null` exit code (signal termination) before
readiness is not silent — the strict comparison `code !== 0` holds for
`null`, so the handler publishes a startup failure. -/
theorem silent_preready_exit_cex :
    onExit false none [] = .startupFailure none [] ∧
    onExit false none [] ≠ .silent := by
  constructor
  · rfl
  · decide

/-- C9 (amended): an exit before `ready` is completely silent exactly when
the exit code is `0`; a `null` code before `ready` is reported as a startup
failure. -/
theorem silent_preready_exit (lines : List String) :
    onExit false (some 0) lines = .silent ∧
    onExit false none lines = .startupFailure none lines := by
  constructor <;> simp [onExit]

/-- C7: for any state with a truthy conversation id, saving and then
loading reproduces the conversation id, invite URL and watermark
unchanged; loading a missing or unparseable file returns the empty default
(and, being a total function, never raises). -/
theorem persist_load_roundtrip (cid : String) (inviteUrl : Option String)
    (ts : Option Nat) (st : Store) (h : cid ≠ "") :
    loadPersistedState (persistState (some cid) inviteUrl ts st) =
      some ⟨some cid, inviteUrl, ts⟩ ∧
    loadPersistedState .missing = none ∧
    loadPersistedState .corrupt = none := by
  refine ⟨?_, rfl, rfl⟩
  have htr : strTruthy (some cid) = true := by
    simp [strTruthy, h]
  unfold persistState
  rw [htr]
  cases inviteUrl <;> cases ts <;> rfl

/-- Witness for C7: a concrete save/load round trip. -/
theorem persist_load_roundtrip_witness :
    ("conv1" : String) ≠ "" ∧
    loadPersistedState
        (persistState (some "conv1") (some "https://x") (some 42) .missing) =
      some ⟨some "conv1", some "https://x", some 42⟩ :=
  ⟨by decide,
   (persist_load_roundtrip "conv1" (some "https://x") (some 42) .missing
      (by decide)).1⟩

/-! ## Codec claims -/

/-- C5 (code bug): the claim says every malformed or unrecognized line
produces zero events and never raises an error, but a stdout line whose
text is `null` is well-formed JSON — `JSON.parse` succeeds, the try/catch
does not fire — and the handler then reads `event.event` (part_001:571)
on `null`, throwing a TypeError that nothing in the line handler catches.
A genuinely malformed line is caught and dropped, an unrecognized object
discriminant falls through with no event, and a recognized line yields
exactly its one event — the `null` line is the one input on which the
never-raises part fails. -/
theorem codec_null_line_raises :
    recognized RawLine.nullValue = false ∧
    dispatchLine RawLine.nullValue =
      .error "TypeError: cannot read field event of null" ∧
    dispatchLine RawLine.malformed = .ok none ∧
    dispatchLine (RawLine.obj ⟨some "bogus", none, none, none, none, none,
      none, none, none, none, none, none⟩) = .ok none ∧
    dispatchLine (RawLine.obj ⟨some "sent", none, none, none, some "m7",
      none, none, none, none, none, none, none⟩) =
      .ok (some (.sent (some "m7"))) :=
  ⟨rfl, rfl, rfl, rfl, rfl⟩

/-! ## Frame effect of a `message` event without a truthy `sentAtNs` -/

/-- C10: a `message` event whose payload lacks a truthy `sentAtNs` leaves
the watermark and the persisted session file unchanged — the watermark
assignment and the `persistState()` call are guarded by that field — while
the event still emits exactly one turn-triggering publish on every path
(ordinary text, attachment image, or attachment-download failure). -/
theorem message_without_sentAtNs_frame (cid inv : Option String)
    (st : SessionSt) (store : Store) (e : MessageEvent)
    (am : Option String) (ok : Bool) (h : e.sentAtNs = none) :
    (handleMessageEvent cid inv st store e am ok).state.lastSeenTimestampNs =
      st.lastSeenTimestampNs ∧
    (handleMessageEvent cid inv st store e am ok).store = store ∧
    publishTriggersTurn (handleMessageEvent cid inv st store e am ok).publish
      = true := by
  unfold handleMessageEvent
  rw [h]
  cases am with
  | none => exact ⟨rfl, rfl, rfl⟩
  | some f =>
    by_cases h1 : strTruthy cid
    · by_cases h2 : isImageFilename f
      · cases ok <;> simp [h1, h2, publishTriggersTurn]
      · simp [h1, h2, publishTriggersTurn]
    · simp [h1, publishTriggersTurn]

/-- Witness for C10: a concrete `message` event with no `sentAtNs` leaves
watermark and file untouched and still publishes a turn trigger. -/
theorem message_without_sentAtNs_frame_witness :
    ((⟨some "m1", some "alice", some "hi", some "text", some "t",
        none⟩ : MessageEvent).sentAtNs = none) ∧
    (handleMessageEvent (some "c") none ⟨some 77, false⟩ .missing
        ⟨some "m1", some "alice", some "hi", some "text", some "t", none⟩
        none false).state.lastSeenTimestampNs = some 77 ∧
    (handleMessageEvent (some "c") none ⟨some 77, false⟩ .missing
        ⟨some "m1", some "alice", some "hi", some "text", some "t", none⟩
        none false).store = .missing := by
  have h := message_without_sentAtNs_frame (some "c") none ⟨some 77, false⟩
    .missing ⟨some "m1", some "alice", some "hi", some "text", some "t", none⟩
    none false rfl
  exact ⟨rfl, h.1, h.2.1⟩

/-! ## Stop grace timer claim -/

/-- C3: with a live process, a voluntary exit before the grace timer fires
means no forced-termination signal is delivered (the fired timer finds the
process gone and `kill` is a no-op); if the process is still running when
the timer fires, exactly one signal is delivered and the timer is spent;
calling stop with no live process changes nothing. -/
theorem stop_grace_timer (s : StopSt) (hlive : s.live = true) :
    (timerFire (procExit (stopAgent s))).sigtermsSent = s.sigtermsSent ∧
    (s.procRunning = true →
      (timerFire (stopAgent s)).sigtermsSent = s.sigtermsSent + 1 ∧
      (timerFire (stopAgent s)).timerPending = false) ∧
    (∀ s2 : StopSt, s2.live = false → stopAgent s2 = s2) := by
  refine ⟨?_, ?_, ?_⟩
  · simp [stopAgent, procExit, timerFire, hlive]
  · intro hrun
    refine ⟨?_, ?_⟩
    · simp [stopAgent, timerFire, hlive, hrun]
    · simp [stopAgent, timerFire, hlive, hrun]
  · intro s2 h2
    simp [stopAgent, h2]

/-- Witness for C3: a live, running, writable process. -/
theorem stop_grace_timer_witness :
    (⟨true, true, true, false, 0, 0⟩ : StopSt).live = true ∧
    (timerFire (procExit (stopAgent ⟨true, true, true, false, 0, 0⟩))).sigtermsSent
      = 0 ∧
    (timerFire (stopAgent ⟨true, true, true, false, 0, 0⟩)).sigtermsSent = 1 := by
  have h := stop_grace_timer ⟨true, true, true, false, 0, 0⟩ rfl
  exact ⟨rfl, h.1, (h.2.1 rfl).1⟩

/-! ## Mode router claim -/

/-- C8 counterexample: with the process ready, in headless mode, and the
last trigger not remote, the handler returns no modification at all — in
particular it does not append the terminal directive the claim requires —
so the appended directive is not determined solely by the flag. -/
theorem mode_router_cex :
    beforeAgentStart true true false "base" = none ∧
    beforeAgentStart true true false "base" ≠
      some ("base" ++ terminalDirective) := by
  constructor
  · rfl
  · intro h
    simp [beforeAgentStart] at h

/-- C8 (amended): when the process is ready and the session is interactive,
the appended directive is determined solely by the remote-trigger flag
(remote-reply plain-text directive when true, the opposite directive when
false); in headless mode the remote directive is appended only when the
flag is true and nothing is appended when it is false; before readiness
nothing is ever appended. -/
theorem mode_router_directive (p : String) (flag : Bool) :
    beforeAgentStart true false flag p =
      some (p ++ (if flag then convosDirective else terminalDirective)) ∧
    beforeAgentStart true true true p = some (p ++ convosDirective) ∧
    beforeAgentStart true true false p = none ∧
    (∀ h f : Bool, beforeAgentStart false h f p = none) := by
  refine ⟨?_, rfl, rfl, fun h f => rfl⟩
  cases flag <;> rfl

/-! ## Watermark order helpers -/

theorem wmLe_refl (a : Option Nat) : wmLe a a = true := by
  cases a with
  | none => rfl
  | some n => simp [wmLe]

theorem wmLe_trans {a b c : Option Nat} (h1 : wmLe a b = true)
    (h2 : wmLe b c = true) : wmLe a c = true := by
  cases a <;> cases b <;> cases c <;> (simp_all [wmLe]; try omega)

/-- In a list sorted by `f`, every element is dominated by the last. -/
theorem pairwise_le_getLast {α : Type} (f : α → Nat) :
    ∀ (l : List α), l.Pairwise (fun a b => f a ≤ f b) →
      ∀ (h : l ≠ []) (a : α), a ∈ l → f a ≤ f (l.getLast h) := by
  intro l
  induction l with
  | nil => intro _ h; exact absurd rfl h
  | cons x xs ih =>
    intro hp h a ha
    rcases List.pairwise_cons.mp hp with ⟨hx, hp2⟩
    cases xs with
    | nil =>
      rcases List.mem_singleton.mp ha with rfl
      exact le_rfl
    | cons y ys =>
      have hne : (y :: ys) ≠ [] := List.cons_ne_nil y ys
      rw [List.getLast_cons hne]
      rcases List.mem_cons.mp ha with rfl | hmem
      · exact hx _ (List.getLast_mem hne)
      · exact ih hp2 hne a hmem

/-- The watermark after a reconciliation run is either unchanged, or the
`sentAtNs` of the last fetched message. -/
theorem catchUp_wm_cases (cid env inv : Option String) (ls : Option Nat)
    (flag : Bool) (store : Store) (own : Option String)
    (fetched : Option (List FetchedMessage)) :
    (catchUpOnMissedMessages cid env inv ls flag store own
        fetched).lastSeenTimestampNs = ls ∨
    (∃ msgs newest, fetched = some msgs ∧ msgs.getLast? = some newest ∧
      newest.sentAtNs.isSome = true ∧
      (catchUpOnMissedMessages cid env inv ls flag store own
          fetched).lastSeenTimestampNs = newest.sentAtNs) := by
  unfold catchUpOnMissedMessages
  split
  · left; rfl
  · rcases fetched with _ | msgs
    · left; rfl
    · dsimp only
      split
      · left; rfl
      · split
        · left; rfl
        · rcases hlast : msgs.getLast? with _ | newest
          · left; rfl
          · dsimp only
            rcases hts : newest.sentAtNs with _ | ts
            · left; rfl
            · right
              exact ⟨msgs, newest, rfl, hlast, by simp [hts], hts.symm⟩

/-- The watermark after the `message` case: the `sentAtNs` of the event
when truthy, otherwise unchanged. -/
theorem handleMessageEvent_wm (cid inv : Option String) (st : SessionSt)
    (store : Store) (e : MessageEvent) (am : Option String) (ok : Bool) :
    (handleMessageEvent cid inv st store e am ok).state.lastSeenTimestampNs =
      match e.sentAtNs with
      | some ts => some ts
      | none => st.lastSeenTimestampNs := by
  unfold handleMessageEvent
  cases am with
  | none => cases e.sentAtNs <;> rfl
  | some f =>
    cases e.sentAtNs <;> by_cases h1 : strTruthy cid <;>
      by_cases h2 : isImageFilename f <;> cases ok <;> simp [h1, h2]

/-! ## C2: watermark monotonicity -/

/-- A message event or reconciliation input is time-ordered with respect to
the current state when every send-time it carries is at or after the
current watermark (live events arriving in order; a catch-up query result
restricted by `--sent-after`). -/
def opOk (b : BridgeSt) : Op → Prop
  | .msgEvent e _ _ => ∀ t, e.sentAtNs = some t →
      wmLe b.session.lastSeenTimestampNs (some t) = true
  | .catchUp _ fetched => ∀ msgs, fetched = some msgs →
      ∀ m ∈ msgs, ∀ t, m.sentAtNs = some t →
        wmLe b.session.lastSeenTimestampNs (some t) = true

/-- Every operation in the sequence is time-ordered in the state where it
runs. -/
inductive OpsOk : BridgeSt → List Op → Prop
  | nil (b : BridgeSt) : OpsOk b []
  | cons {b : BridgeSt} {op : Op} {ops : List Op} :
      opOk b op → OpsOk (stepOp b op) ops → OpsOk b (op :: ops)

theorem stepOp_wm_mono (b : BridgeSt) (op : Op) (h : opOk b op) :
    wmLe b.session.lastSeenTimestampNs
      (stepOp b op).session.lastSeenTimestampNs = true := by
  cases op with
  | msgEvent e am ok =>
    have hw := handleMessageEvent_wm b.conversationId b.inviteUrl b.session
      b.store e am ok
    show wmLe b.session.lastSeenTimestampNs
      (handleMessageEvent b.conversationId b.inviteUrl b.session b.store e am
        ok).state.lastSeenTimestampNs = true
    rw [hw]
    cases hts : e.sentAtNs with
    | none => exact wmLe_refl _
    | some t => exact h t hts
  | catchUp own fetched =>
    show wmLe b.session.lastSeenTimestampNs
      (catchUpOnMissedMessages b.conversationId b.convosEnvFile b.inviteUrl
        b.session.lastSeenTimestampNs b.session.lastMessageFromConvos b.store
        own fetched).lastSeenTimestampNs = true
    rcases catchUp_wm_cases b.conversationId b.convosEnvFile b.inviteUrl
        b.session.lastSeenTimestampNs b.session.lastMessageFromConvos b.store
        own fetched with heq | ⟨msgs, newest, hf, hlast, hsome, heq⟩
    · rw [heq]; exact wmLe_refl _
    · rw [heq]
      obtain ⟨t, ht⟩ := Option.isSome_iff_exists.mp hsome
      rw [ht]
      have hmem : newest ∈ msgs := by
        obtain ⟨hne2, hx⟩ :=
          List.mem_getLast?_eq_getLast (Option.mem_def.mpr hlast)
        rw [hx]
        exact List.getLast_mem hne2
      exact h msgs hf newest hmem t ht

/-- C2 counterexample: the `message` case assigns `event.sentAtNs` to the
watermark without comparing it to the current value, so an event carrying
an older send-time lowers the watermark: from a state with watermark 100, a
message event with `sentAtNs = 50` leaves watermark 50. -/
theorem watermark_monotone_cex :
    (stepOp ⟨some "c", some "e", none, ⟨some 100, false⟩, .missing⟩
        (.msgEvent ⟨none, none, none, none, none, some 50⟩ none
          false)).session.lastSeenTimestampNs = some 50 ∧
    wmLe (some 100) (some 50) = false := by
  constructor
  · rfl
  · rfl

/-- C2 (amended): across any sequence of `message` events and
reconciliation runs in which every operation carries send-times at or
after the watermark current when it runs (the delivery order of the live
stream and the `--sent-after` bound of the catch-up query), the watermark
is monotonically non-decreasing. -/
theorem watermark_monotone_ordered (ops : List Op) (b : BridgeSt)
    (h : OpsOk b ops) :
    wmLe b.session.lastSeenTimestampNs
      (runOps b ops).session.lastSeenTimestampNs = true := by
  induction ops generalizing b with
  | nil => exact wmLe_refl _
  | cons op ops ih =>
    cases h with
    | cons h1 h2 =>
      show wmLe b.session.lastSeenTimestampNs
        (List.foldl stepOp (stepOp b op) ops).session.lastSeenTimestampNs = true
      exact wmLe_trans (stepOp_wm_mono b op h1) (ih (stepOp b op) h2)

/-- Witness for C2: one in-order message event advances the watermark from
100 to 150. -/
theorem watermark_monotone_ordered_witness :
    wmLe (some 100)
      ((runOps ⟨some "c", some "e", none, ⟨some 100, false⟩, .missing⟩
          [.msgEvent ⟨none, none, none, none, none, some 150⟩ none
            false]).session.lastSeenTimestampNs) = true := by
  exact watermark_monotone_ordered
    [.msgEvent ⟨none, none, none, none, none, some 150⟩ none false]
    ⟨some "c", some "e", none, ⟨some 100, false⟩, .missing⟩
    (OpsOk.cons (fun t ht => by cases ht; rfl) (OpsOk.nil _))

/-! ## C1: catch-up watermark advancement -/

/-- C1 counterexample: when every fetched message is filtered out (here the
single fetched message, at send-time 20 past the stored watermark 10, is
self-authored), the reconciler returns before the watermark update, so the
stored watermark stays 10 instead of advancing to the maximum send-time 20
across all fetched messages — contradicting the claim for this fetch. -/
theorem catchup_watermark_cex :
    (catchUpOnMissedMessages (some "c") (some "e") none (some 10) false
        .missing (some "me")
        (some [⟨some "me", some "hi", some 20⟩])).lastSeenTimestampNs =
      some 10 ∧
    (catchUpOnMissedMessages (some "c") (some "e") none (some 10) false
        .missing (some "me")
        (some [⟨some "me", some "hi", some 20⟩])).lastSeenTimestampNs ≠
      some 20 ∧
    (catchUpOnMissedMessages (some "c") (some "e") none (some 10) false
        .missing (some "me")
        (some [⟨some "me", some "hi", some 20⟩])).store = .missing := by
  refine ⟨rfl, ?_, rfl⟩
  decide

/-- C1 (amended): when at least one fetched message survives the
self-author/text filter, the fetched list is ascending in send-time, and
every fetched message carries a send-time, the reconciler sets and persists
the watermark to the send-time of the last — hence maximum — fetched
message, self-authored ones included, and emits a summary containing
exactly the filtered messages in order; when every fetched message is
filtered out the watermark is left unchanged (see the counterexample). -/
theorem catchup_watermark_max (cid env inv : Option String) (t0 : Nat)
    (flag : Bool) (store : Store) (own : Option String)
    (msgs : List FetchedMessage)
    (hcid : strTruthy cid = true) (henv : strTruthy env = true)
    (hne : msgs ≠ [])
    (hmiss : msgs.filter (missedFilter own) ≠ [])
    (hts : ∀ m ∈ msgs, m.sentAtNs.isSome = true)
    (hsorted : msgs.Pairwise
      (fun a b => a.sentAtNs.getD 0 ≤ b.sentAtNs.getD 0)) :
    (catchUpOnMissedMessages cid env inv (some t0) flag store own
        (some msgs)).lastSeenTimestampNs = (msgs.getLast hne).sentAtNs ∧
    (∀ m ∈ msgs, ∀ t, m.sentAtNs = some t →
      t ≤ (msgs.getLast hne).sentAtNs.getD 0) ∧
    (catchUpOnMissedMessages cid env inv (some t0) flag store own
        (some msgs)).store =
      persistState cid inv ((msgs.getLast hne).sentAtNs) store ∧
    (catchUpOnMissedMessages cid env inv (some t0) flag store own
        (some msgs)).steerSummary =
      some ((msgs.filter (missedFilter own)).map fun m =>
        (m.senderInboxId.getD "", m.contentText.getD "")) := by
  have hlast : msgs.getLast? = some (msgs.getLast hne) :=
    List.getLast?_eq_getLast_of_ne_nil hne
  have hlastmem : msgs.getLast hne ∈ msgs := List.getLast_mem hne
  obtain ⟨tl, htl⟩ : ∃ tl, (msgs.getLast hne).sentAtNs = some tl :=
    Option.isSome_iff_exists.mp (hts _ hlastmem)
  have hred : catchUpOnMissedMessages cid env inv (some t0) flag store own
      (some msgs) =
      ⟨some tl, persistState cid inv (some tl) store, true,
       some ((msgs.filter (missedFilter own)).map fun m =>
         (m.senderInboxId.getD "", m.contentText.getD ""))⟩ := by
    unfold catchUpOnMissedMessages
    rw [if_neg (by simp [hcid, henv])]
    dsimp only
    rw [if_neg (by simp [List.isEmpty_iff, hne]),
        if_neg (by simp [List.isEmpty_iff, hmiss]),
        hlast]
    dsimp only
    rw [htl]
  refine ⟨?_, ?_, ?_, ?_⟩
  · rw [hred, htl]
  · intro m hm t ht
    have hle := pairwise_le_getLast (fun m => m.sentAtNs.getD 0) msgs
      hsorted hne m hm
    simpa [ht] using hle
  · rw [hred, htl]
  · rw [hred]

/-- Witness for C1 (also the particular scenario of the claim): stored
watermark 10, three fetched messages at send-times 11 < 12 < 13 with the
one at 12 self-authored — the summary contains exactly the messages at 11
and 13, and the watermark after reconciliation is 13, persisted. -/
theorem catchup_watermark_max_witness :
    (catchUpOnMissedMessages (some "c") (some "e") none (some 10) false
        .missing (some "me")
        (some [⟨some "alice", some "m1", some 11⟩,
               ⟨some "me", some "m2", some 12⟩,
               ⟨some "bob", some "m3", some 13⟩])).lastSeenTimestampNs =
      some 13 ∧
    (catchUpOnMissedMessages (some "c") (some "e") none (some 10) false
        .missing (some "me")
        (some [⟨some "alice", some "m1", some 11⟩,
               ⟨some "me", some "m2", some 12⟩,
               ⟨some "bob", some "m3", some 13⟩])).steerSummary =
      some [("alice", "m1"), ("bob", "m3")] := by
  have h := catchup_watermark_max (some "c") (some "e") none 10 false
    .missing (some "me")
    [⟨some "alice", some "m1", some 11⟩,
     ⟨some "me", some "m2", some 12⟩,
     ⟨some "bob", some "m3", some 13⟩]
    rfl rfl (by decide) (by decide) (by decide) (by decide)
  exact ⟨h.1, h.2.2.2⟩

end PiConvos
